import Mathlib

/-!
# Verification of the butterknife credential broker core

A shallow embedding, in Lean 4, of the core of the butterknife broker:
the budget wallet (`src/services/wallet.ts`), the provider registry
(`src/services/providers.ts`), the hash-chained receipt ledger
(`src/services/receipts.ts`), the credential vault
(`src/services/vault.ts`) and the call pipeline
(`src/services/proxy.ts`).

Conventions of the embedding:
* JavaScript numbers that hold integer microdollars are modelled as `Int`
  (or `Nat` where the source value is always non-negative);
  `Math.ceil` over an exact division is modelled as the ceiling of the
  corresponding rational number.
* JSON values are modelled by the inductive type `Json`; object fields
  keep insertion order, as JavaScript objects do.
* SHA-256 is kept abstract: every chain-level definition and theorem is
  parametric in a hash function `h : String → String`.  None of the
  proved properties needs collision resistance.
* File persistence is modelled by a boolean flag recording whether the
  operation invoked the store's `persist()`.
* The HTTP dispatch is modelled by an oracle
  `OutboundRequest → Except String FetchOutcome` supplied as a
  parameter: `Except.error msg` is a network-layer failure (a thrown
  `fetch` error), `Except.ok` carries the HTTP status together with the
  already-parsed response body (the source's step that parses JSON or
  falls back to text is collapsed into that parsed value).
-/

/-- A JSON value.  Object fields are an association list in insertion
order, mirroring JavaScript object semantics. -/
inductive Json where
  | null : Json
  | bool (b : Bool) : Json
  | num (n : Int) : Json
  | str (s : String) : Json
  | arr (items : List Json) : Json
  | obj (fields : List (String × Json)) : Json
deriving Repr, Inhabited

/-- Hexadecimal digit (lower case), used by the string-escape model. -/
def hexDigit (n : Nat) : Char :=
  if n < 10 then Char.ofNat (48 + n) else Char.ofNat (87 + n)

/-- One character of a JSON-quoted string, following the escapes
produced by JavaScript's JSON.stringify. -/
def jsonEscapeChar (c : Char) : String :=
  if c = '"' then "\\\""
  else if c = '\\' then "\\\\"
  else if c = '\n' then "\\n"
  else if c = '\r' then "\\r"
  else if c = '\t' then "\\t"
  else if c = Char.ofNat 8 then "\\b"
  else if c = Char.ofNat 12 then "\\f"
  else if c.toNat < 32 then
    "\\u00" ++ String.mk [hexDigit (c.toNat / 16), hexDigit (c.toNat % 16)]
  else String.singleton c

/-- JSON string literal: quotes plus escapes, as JSON.stringify renders
a string value. -/
def jsonQuote (s : String) : String :=
  "\"" ++ String.join (s.toList.map jsonEscapeChar) ++ "\""

/-- Rendering of a JSON scalar, shared by both serialisers. -/
def jsonScalar : Json → String
  | .null => "null"
  | .bool b => if b then "true" else "false"
  | .num n => toString n
  | .str s => jsonQuote s
  | .arr _ => ""
  | .obj _ => ""

mutual

/-- Model of JavaScript's JSON.stringify on a JSON value: object fields
are rendered in insertion order. -/
def jsStringify : Json → String
  | .null => "null"
  | .bool b => if b then "true" else "false"
  | .num n => toString n
  | .str s => jsonQuote s
  | .arr items => "[" ++ jsStringifyItems items ++ "]"
  | .obj fields => "\x7b" ++ jsStringifyFields fields ++ "\x7d"

/-- Comma-joined serialisation of array items. -/
def jsStringifyItems : List Json → String
  | [] => ""
  | [x] => jsStringify x
  | x :: y :: rest => jsStringify x ++ "," ++ jsStringifyItems (y :: rest)

/-- Comma-joined serialisation of object fields in insertion order. -/
def jsStringifyFields : List (String × Json) → String
  | [] => ""
  | [kv] => jsonQuote kv.1 ++ ":" ++ jsStringify kv.2
  | kv :: kv2 :: rest =>
      jsonQuote kv.1 ++ ":" ++ jsStringify kv.2 ++ "," ++
        jsStringifyFields (kv2 :: rest)

end

/-- Lexicographic order on character lists by code point — the string
comparison JavaScript's default Array.sort uses on keys. -/
def charListLe : List Char → List Char → Bool
  | [], _ => true
  | _ :: _, [] => false
  | a :: as, b :: bs =>
      if a.toNat = b.toNat then charListLe as bs else Nat.blt a.toNat b.toNat

/-- Lexicographic string comparison by code point. -/
def keyLe (x y : String) : Bool :=
  charListLe x.toList y.toList

/-- Insert a rendered field into a key-sorted list of rendered fields
(insertion step of the key sort performed by stableStringify). -/
def insertByKey (kv : String × String) :
    List (String × String) → List (String × String)
  | [] => [kv]
  | x :: xs => if keyLe kv.1 x.1 then kv :: x :: xs else x :: insertByKey kv xs

/-- Sort rendered fields by key, lexicographically — the model of
JavaScript's Object.keys(obj).sort(). -/
def sortByKey : List (String × String) → List (String × String)
  | [] => []
  | x :: xs => insertByKey x (sortByKey xs)

/-- Join already-rendered, key-sorted fields as "key":value pairs. -/
def renderSortedFields : List (String × String) → String
  | [] => ""
  | [kv] => jsonQuote kv.1 ++ ":" ++ kv.2
  | kv :: kv2 :: rest =>
      jsonQuote kv.1 ++ ":" ++ kv.2 ++ "," ++ renderSortedFields (kv2 :: rest)

mutual

/-- Model of the source's stableStringify: deterministic serialisation
with object keys sorted lexicographically; null renders as "null". -/
def stableStringify : Json → String
  | .null => "null"
  | .bool b => if b then "true" else "false"
  | .num n => toString n
  | .str s => jsonQuote s
  | .arr items => "[" ++ stableStringifyItems items ++ "]"
  | .obj fields =>
      "\x7b" ++ renderSortedFields (sortByKey (stableStringifyFields fields)) ++ "\x7d"

/-- Comma-joined stable serialisation of array items. -/
def stableStringifyItems : List Json → String
  | [] => ""
  | [x] => stableStringify x
  | x :: y :: rest => stableStringify x ++ "," ++ stableStringifyItems (y :: rest)

/-- Render every field value, keeping the key; the caller sorts the
result by key.  JavaScript objects cannot hold duplicate keys, so
rendering values before sorting keys agrees with the source's
sort-keys-then-render. -/
def stableStringifyFields : List (String × Json) → List (String × String)
  | [] => []
  | kv :: rest => (kv.1, stableStringify kv.2) :: stableStringifyFields rest

end

/-- stableStringify applied to a possibly-undefined value: the source
returns "null" for both null and undefined. -/
def stableStringifyOpt : Option Json → String
  | none => "null"
  | some j => stableStringify j

-- ════════════════════════════════════════════════════════════════════
-- Wallet — src/services/wallet.ts
-- ════════════════════════════════════════════════════════════════════

/-- The wallet's persisted data (interface WalletData of the source).
byProvider is an association list in insertion order, mirroring a
JavaScript Record. -/
structure WalletData where
  totalBudget : Int
  spent : Int
  byProvider : List (String × Int)
  createdAt : String
deriving Repr, DecidableEq, Inhabited

/-- Result of a budget check (interface BudgetCheckResult). -/
structure BudgetCheckResult where
  allowed : Bool
  reason : Option String
  estimatedCost : Int
  remainingAfter : Int
deriving Repr, DecidableEq

/-- Human-facing currency rendering.  The source formats microdollars
through binary floating point (toFixed); the spec (section 1) puts
human-facing currency formatting out of scope, and no verified property
reads this text, so it is modelled as the plain decimal rendering. -/
def formatMicrodollars (micro : Int) : String :=
  toString micro

/-- JavaScript object update obj[k] = (obj[k] ?? 0) + c on an
association list: add to the first matching key, else append. -/
def bumpKey (l : List (String × Int)) (k : String) (c : Int) :
    List (String × Int) :=
  match l with
  | [] => [(k, c)]
  | (k', v) :: rest => if k' = k then (k', v + c) :: rest else (k', v) :: bumpKey rest k c

/-- Wallet.checkBudget: pure read of the wallet state. -/
def Wallet.checkBudget (w : WalletData) (_providerId : String)
    (estimatedCost : Int) : BudgetCheckResult :=
  let remaining := w.totalBudget - w.spent
  if estimatedCost > remaining then
    { allowed := false
      reason := some ("Insufficient budget. Need " ++ formatMicrodollars estimatedCost
        ++ ", have " ++ formatMicrodollars remaining ++ " remaining.")
      estimatedCost := estimatedCost
      remainingAfter := remaining - estimatedCost }
  else
    { allowed := true
      reason := none
      estimatedCost := estimatedCost
      remainingAfter := remaining - estimatedCost }

/-- Wallet.recordSpend: adds to spent and byProvider[providerId],
returns the updated remaining balance together with the new state. -/
def Wallet.recordSpend (w : WalletData) (providerId : String) (cost : Int) :
    Int × WalletData :=
  let data := { w with
    spent := w.spent + cost
    byProvider := bumpKey w.byProvider providerId cost }
  (data.totalBudget - data.spent, data)

/-- Wallet.setBudget: overwrites the total budget. -/
def Wallet.setBudget (w : WalletData) (microdollars : Int) : WalletData :=
  { w with totalBudget := microdollars }

/-- Wallet.resetSpend: zeroes spend tracking, keeps the budget. -/
def Wallet.resetSpend (w : WalletData) : WalletData :=
  { w with spent := 0, byProvider := [] }

/-- A wallet operation, for reasoning about operation sequences. -/
inductive WalletOp where
  | checkBudget (providerId : String) (estimatedCost : Int)
  | recordSpend (providerId : String) (cost : Int)
  | setBudget (microdollars : Int)
  | resetSpend
deriving Repr, DecidableEq

/-- One wallet method call: the state afterwards, plus a flag recording
whether the method invoked persist().  checkBudget neither mutates nor
persists; the three mutators persist before returning. -/
def stepWallet (w : WalletData) : WalletOp → WalletData × Bool
  | .checkBudget pid c =>
      let _ := Wallet.checkBudget w pid c
      (w, false)
  | .recordSpend pid c => ((Wallet.recordSpend w pid c).2, true)
  | .setBudget m => (Wallet.setBudget w m, true)
  | .resetSpend => (Wallet.resetSpend w, true)

/-- Run a sequence of wallet operations. -/
def applyOps (w : WalletData) : List WalletOp → WalletData
  | [] => w
  | op :: ops => applyOps (stepWallet w op).1 ops

/-- The in-memory state produced by Wallet.load for a missing or
corrupt wallet file: the default budget, nothing spent. -/
def freshWallet (defaultBudget : Int) (createdAt : String) : WalletData :=
  { totalBudget := defaultBudget, spent := 0, byProvider := [], createdAt := createdAt }

/-- Sum of the per-provider spend entries. -/
def sumBy (l : List (String × Int)) : Int :=
  (l.map Prod.snd).sum

-- ════════════════════════════════════════════════════════════════════
-- Provider registry — src/services/providers.ts
-- ════════════════════════════════════════════════════════════════════

/-- How a credential is injected into an outbound request. -/
inductive AuthMethod where
  | header
  | query
  | body
deriving Repr, DecidableEq

/-- The provider's cost model. -/
inductive CostUnit where
  | perRequest
  | per1kTokens
  | per1kChars
deriving Repr, DecidableEq

/-- A provider descriptor (interface ProviderConfig).  The field
authPfx models the source's optional auth value prefix field;
costPerUnit is integer microdollars and non-negative (spec section 3),
hence Nat. -/
structure ProviderConfig where
  id : String
  name : String
  baseUrl : String
  authMethod : AuthMethod
  authField : String
  authPfx : Option String
  costPerUnit : Nat
  costUnit : CostUnit
deriving Repr, DecidableEq

/-- The string whose length drives the token estimate, exactly as the
source computes it: a string body is used verbatim; any other body is
passed through JSON.stringify, with null and undefined first replaced
by the empty string (requestBody ?? ""). -/
def jsBodyStr : Option Json → String
  | some (.str s) => s
  | some .null => jsStringify (.str "")
  | some j => jsStringify j
  | none => jsStringify (.str "")

/-- ProviderRegistry.estimateCost, given the provider's config.
Math.ceil over the exact quotient is modelled as the rational ceiling. -/
def estimateCostFor (provider : ProviderConfig) (requestBody : Option Json) : Nat :=
  match provider.costUnit with
  | .perRequest => provider.costPerUnit
  | .per1kTokens =>
      let bodyStr := jsBodyStr requestBody
      let estimatedTokens : Nat := ⌈(bodyStr.length : ℚ) / 4⌉₊
      ⌈(estimatedTokens : ℚ) / 1000 * provider.costPerUnit⌉₊
  | .per1kChars =>
      let charStr := jsBodyStr requestBody
      ⌈(charStr.length : ℚ) / 1000 * provider.costPerUnit⌉₊

/-- The registry's provider map (Map.get semantics). -/
def ProviderRegistry := String → Option ProviderConfig

/-- ProviderRegistry.estimateCost: unknown providers cost 0. -/
def ProviderRegistry.estimateCost (registry : ProviderRegistry)
    (providerId : String) (requestBody : Option Json) : Nat :=
  match registry providerId with
  | none => 0
  | some provider => estimateCostFor provider requestBody

/-- The built-in openai provider (first entry of DEFAULT_PROVIDERS). -/
def openaiProvider : ProviderConfig :=
  { id := "openai", name := "OpenAI", baseUrl := "https://api.openai.com/v1"
    authMethod := .header, authField := "Authorization", authPfx := some "Bearer "
    costPerUnit := 3000, costUnit := .per1kTokens }

/-- Modelled from the spec (section 4.1) and the claim: the cost that
C5 asserts for per-1k-token providers — L is the UTF-8 byte length of
the canonical JSON serialisation (keys sorted, null/absent rendered as
"null") of the request body, tokens = ceil(L / 4), and the result is
ceil(tokens / 1000 * cost_per_unit).  Stated for comparison with
estimateCostFor, which is translated from the source. -/
def specEstimatePer1kTokens (provider : ProviderConfig)
    (requestBody : Option Json) : Nat :=
  let canonical := stableStringifyOpt requestBody
  let tokens : Nat := ⌈(canonical.utf8ByteSize : ℚ) / 4⌉₊
  ⌈(tokens : ℚ) / 1000 * provider.costPerUnit⌉₊

-- ════════════════════════════════════════════════════════════════════
-- Receipt chain — src/services/receipts.ts
-- ════════════════════════════════════════════════════════════════════

/-- The genesis predecessor hash: "0".repeat(64). -/
def GENESIS_HASH : String :=
  String.mk (List.replicate 64 '0')

/-- A hash-chained call receipt (interface CallReceipt). -/
structure CallReceipt where
  receiptId : String
  contextId : String
  providerId : String
  timestamp : String
  cost : Int
  requestHash : String
  responseHash : String
  previousReceiptHash : String
  receiptHash : String
deriving Repr, DecidableEq, Inhabited

/-- The receipt-hash preimage:
receiptId || contextId || requestHash || responseHash || previousHash,
joined by the literal two-character separator. -/
def mintPreimage (receiptId contextId requestHash responseHash
    previousReceiptHash : String) : String :=
  receiptId ++ "||" ++ contextId ++ "||" ++ requestHash ++ "||" ++
    responseHash ++ "||" ++ previousReceiptHash

/-- ReceiptChain.mint, parametric in the hash function h (SHA-256 in
the source) and explicit in the values the source draws from the
environment (the random receiptId and the current timestamp).  Returns
the new receipt together with the appended chain. -/
def ReceiptChain.mint (h : String → String) (contextId : String)
    (receipts : List CallReceipt) (receiptId timestamp providerId : String)
    (cost : Int) (requestBody responseBody : Json) :
    CallReceipt × List CallReceipt :=
  let requestHash := h (stableStringify requestBody)
  let responseHash := h (stableStringify responseBody)
  let previousReceiptHash :=
    match receipts.getLast? with
    | some last => last.receiptHash
    | none => GENESIS_HASH
  let receiptHash :=
    h (mintPreimage receiptId contextId requestHash responseHash previousReceiptHash)
  let receipt : CallReceipt :=
    { receiptId := receiptId, contextId := contextId, providerId := providerId
      timestamp := timestamp, cost := cost, requestHash := requestHash
      responseHash := responseHash, previousReceiptHash := previousReceiptHash
      receiptHash := receiptHash }
  (receipt, receipts ++ [receipt])

/-- ReceiptChain.getRecent: receipts.slice(-n).  JavaScript's slice
with argument -0 (= 0) returns a copy of the whole array; with -n for
n ≥ 1 it returns the elements from index max(length - n, 0). -/
def ReceiptChain.getRecent (receipts : List CallReceipt) (n : Nat) :
    List CallReceipt :=
  if n = 0 then receipts else receipts.drop (receipts.length - n)

/-- Result of ReceiptChain.verify. -/
structure VerifyResult where
  valid : Bool
  brokenAt : Option Nat
  reason : Option String
deriving Repr, DecidableEq

/-- The source's message for a broken previous-hash link. -/
def prevMismatchReason (i : Nat) (expected got : String) : String :=
  "Receipt " ++ toString i ++ " has wrong previousReceiptHash. Expected "
    ++ expected.take 16 ++ "..., got " ++ got.take 16 ++ "..."

/-- The source's message for a tampered receipt hash. -/
def hashMismatchReason (i : Nat) : String :=
  "Receipt " ++ toString i ++ " hash mismatch. Receipt has been tampered with."

/-- The loop body of ReceiptChain.verify: prev carries the expected
previousReceiptHash of the receipt at index i (genesis for i = 0, the
preceding receiptHash otherwise). -/
def verifyLoop (h : String → String) : Nat → String → List CallReceipt → VerifyResult
  | _, _, [] => { valid := true, brokenAt := none, reason := none }
  | i, prev, receipt :: rest =>
    if receipt.previousReceiptHash ≠ prev then
      { valid := false, brokenAt := some i
        reason := some (prevMismatchReason i prev receipt.previousReceiptHash) }
    else if receipt.receiptHash ≠ h (mintPreimage receipt.receiptId
        receipt.contextId receipt.requestHash receipt.responseHash
        receipt.previousReceiptHash) then
      { valid := false, brokenAt := some i, reason := some (hashMismatchReason i) }
    else verifyLoop h (i + 1) receipt.receiptHash rest

/-- ReceiptChain.verify, parametric in the hash function. -/
def ReceiptChain.verify (h : String → String) (receipts : List CallReceipt) :
    VerifyResult :=
  verifyLoop h 0 GENESIS_HASH receipts

/-- The inputs of one mint call that the source draws from its caller
and from the environment. -/
structure MintInput where
  receiptId : String
  timestamp : String
  providerId : String
  cost : Int
  requestBody : Json
  responseBody : Json
deriving Repr

/-- Run a sequence of mint calls against a chain. -/
def mintAll (h : String → String) (contextId : String)
    (receipts : List CallReceipt) : List MintInput → List CallReceipt
  | [] => receipts
  | inp :: rest =>
      mintAll h contextId
        (ReceiptChain.mint h contextId receipts inp.receiptId inp.timestamp
          inp.providerId inp.cost inp.requestBody inp.responseBody).2 rest

/-- Overwrite the cost field of the receipt at index k — tampering with
a single receipt field without recomputing any hash. -/
def setCostAt : List CallReceipt → Nat → Int → List CallReceipt
  | [], _, _ => []
  | r :: rest, 0, c => { r with cost := c } :: rest
  | r :: rest, k + 1, c => r :: setCostAt rest k c

/-- The chain-linking property the spec states: the first receipt's
previousReceiptHash is the genesis hash and every later receipt's
previousReceiptHash equals its predecessor's receiptHash.  The
accumulator carries the expected predecessor hash. -/
def wellLinkedFrom (prev : String) : List CallReceipt → Bool
  | [] => true
  | r :: rest => (r.previousReceiptHash == prev) && wellLinkedFrom r.receiptHash rest

/-- Chain linking starting from the genesis hash. -/
def wellLinked (receipts : List CallReceipt) : Bool :=
  wellLinkedFrom GENESIS_HASH receipts

-- ════════════════════════════════════════════════════════════════════
-- Vault — src/services/vault.ts
-- ════════════════════════════════════════════════════════════════════

/-- A stored credential record (the vault's internal VaultRecord). -/
structure VaultRecord where
  providerId : String
  credential : String
  storedAt : String
  active : Bool
deriving Repr, DecidableEq

/-- The vault's records map (Map.get semantics). -/
def Vault := String → Option VaultRecord

/-- Vault.has: a record exists and is active. -/
def Vault.has (vault : Vault) (providerId : String) : Bool :=
  match vault providerId with
  | some record => record.active
  | none => false

/-- JavaScript object assignment obj[k] = v on an association list:
overwrite the first matching key in place, else append. -/
def setKey (l : List (String × String)) (k v : String) :
    List (String × String) :=
  match l with
  | [] => [(k, v)]
  | (k', v') :: rest => if k' = k then (k', v) :: rest else (k', v') :: setKey rest k v

/-- Vault.injectAuth: writes authField = (authPfx ?? "") ++ credential
into the headers (authMethod header) or the query parameters
(authMethod query); body injection is handled by the pipeline.  Returns
none when no active credential exists (the source throws there; the
pipeline only calls this after Vault.has succeeded). -/
def Vault.injectAuth (vault : Vault) (providerId : String)
    (provider : ProviderConfig) (headers queryParams : List (String × String)) :
    Option (List (String × String) × List (String × String)) :=
  match vault providerId with
  | none => none
  | some record =>
    if record.active then
      let value := (match provider.authPfx with | some p => p | none => "") ++ record.credential
      match provider.authMethod with
      | .header => some (setKey headers provider.authField value, queryParams)
      | .query => some (headers, setKey queryParams provider.authField value)
      | .body => some (headers, queryParams)
    else none

/-- Vault.getCredentialForBodyInjection: the raw credential of an
active record; none when absent (the source throws there; the pipeline
only calls this after Vault.has succeeded). -/
def Vault.getCredentialForBodyInjection (vault : Vault) (providerId : String) :
    Option String :=
  match vault providerId with
  | none => none
  | some record => if record.active then some record.credential else none

-- ════════════════════════════════════════════════════════════════════
-- Call pipeline — src/services/proxy.ts
-- ════════════════════════════════════════════════════════════════════

/-- A typed pipeline error (class ProxyError): message plus code. -/
structure ProxyError where
  message : String
  code : String
deriving Repr, DecidableEq, Inhabited

/-- The pipeline's input (interface ApiCallRequest).  The method is the
HTTP verb as a string; headers, body and queryParams are optional. -/
structure ApiCallRequest where
  providerId : String
  method : String
  path : String
  headers : Option (List (String × String))
  body : Option Json
  queryParams : Option (List (String × String))
deriving Repr

/-- The outbound HTTP request as handed to fetch: the composed headers
and query parameters (credentials injected), the request path, and the
serialised body if one is sent.  URL assembly from the provider's base
URL is not modelled — it only affects the dispatched address, which the
dispatch oracle already abstracts. -/
structure OutboundRequest where
  method : String
  path : String
  headers : List (String × String)
  queryParams : List (String × String)
  bodySent : Option String
deriving Repr

/-- The dispatch outcome for a non-failing fetch: the HTTP status and
the parsed response body (the source parses JSON when advertised and
falls back to text; text responses are Json.str values here). -/
structure FetchOutcome where
  status : Nat
  responseData : Json
deriving Repr

/-- The pipeline's result (interface ApiCallResponse). -/
structure ApiCallResponse where
  status : Nat
  data : Json
  receipt : CallReceipt
  cost : Int
  remainingBudget : Int
deriving Repr, Inhabited

/-- The broker state the pipeline mutates: the wallet and the ledger. -/
structure ProxyState where
  wallet : WalletData
  receipts : List CallReceipt
deriving Repr, DecidableEq, Inhabited

/-- JavaScript truthiness of a possibly-undefined JSON value. -/
def jsTruthy : Option Json → Bool
  | none => false
  | some .null => false
  | some (.bool b) => b
  | some (.num n) => n != 0
  | some (.str s) => s != ""
  | some (.arr _) => true
  | some (.obj _) => true

/-- JavaScript object field update on a JSON object's fields (the
spread merge of one key): overwrite the first matching key in place,
else append. -/
def setJsonKey (fields : List (String × Json)) (k : String) (v : Json) :
    List (String × Json) :=
  match fields with
  | [] => [(k, v)]
  | (k', v') :: rest =>
      if k' = k then (k', v) :: rest else (k', v') :: setJsonKey rest k v

/-- Merge caller headers over the default Content-Type header
(the object spread of step 5). -/
def mergeHeaders (callerHeaders : Option (List (String × String))) :
    List (String × String) :=
  match callerHeaders with
  | none => [("Content-Type", "application/json")]
  | some hs => hs.foldl (fun acc kv => setKey acc kv.1 kv.2)
      [("Content-Type", "application/json")]

/-- The request's query parameters rendered as the JSON value that the
mint descriptor carries: an absent map serialises as null (the source
passes the possibly-undefined request.queryParams straight into the
hashed object, and stableStringify renders undefined as "null"). -/
def qpJson : Option (List (String × String)) → Json
  | none => .null
  | some q => .obj (q.map fun kv => (kv.1, Json.str kv.2))

/-- The credential-free object whose canonical serialisation is hashed
into the receipt's requestHash: method, path, the caller's query
parameters, and the literal "present"/"absent" body marker. -/
def ApiProxy.requestDescriptor (request : ApiCallRequest) (bodyTruthy : Bool) : Json :=
  .obj [("method", .str request.method), ("path", .str request.path),
        ("queryParams", qpJson request.queryParams),
        ("bodyHash", .str (if bodyTruthy then "present" else "absent"))]

/-- Response lookup for the actual-cost computation: usage.total_tokens
when the parsed response is an object whose usage field is an object
with a numeric total_tokens.  (The source casts total_tokens to number
without a runtime check; a non-numeric value there would poison the
arithmetic with NaN — that corner is outside every verified claim and
falls back to the estimate here.) -/
def usageTotalTokens : Json → Option Int
  | .obj fields =>
      match fields.lookup "usage" with
      | some (.obj usageFields) =>
          match usageFields.lookup "total_tokens" with
          | some (.num t) => some t
          | _ => none
      | _ => none
  | _ => none

/-- ApiProxy.calculateActualCost: response token counts override the
estimate for per-1k-token providers; otherwise fall back to the
pre-call estimate. -/
def ApiProxy.calculateActualCost (registry : ProviderRegistry)
    (provider : ProviderConfig) (requestBody : Option Json)
    (responseData : Json) : Int :=
  match usageTotalTokens responseData with
  | some totalTokens =>
      if provider.costUnit = .per1kTokens then
        ⌈(totalTokens : ℚ) / 1000 * provider.costPerUnit⌉
      else
        (ProviderRegistry.estimateCost registry provider.id requestBody : Int)
  | none => (ProviderRegistry.estimateCost registry provider.id requestBody : Int)

/-- The body after step-5 credential injection for body-auth
providers: a JSON-object body receives authField = credential by a
shallow spread merge; every other body passes through unchanged.  (For
a truthy non-object body — an array — the source would spread the array
into a plain object; the spec flags that corner as an ambiguity and no
claim touches it.)  Vault.has has already succeeded when the pipeline
evaluates this, so the credential is present; getD only supplies an
unreachable default. -/
def injectedBody (vault : Vault) (provider : ProviderConfig)
    (request : ApiCallRequest) : Option Json :=
  match provider.authMethod, request.body with
  | .body, some (.obj fields) =>
      let credential := (Vault.getCredentialForBodyInjection vault
        request.providerId).getD ""
      some (.obj (setJsonKey fields provider.authField (.str credential)))
  | _, _ => request.body

/-- The ProxyError thrown at step 1 for an unknown provider. -/
def unknownProviderError (providerId : String) : ProxyError :=
  { message := "Unknown provider \"" ++ providerId ++
      "\". Use butterknife_list_providers to see available providers."
    code := "UNKNOWN_PROVIDER" }

/-- The ProxyError thrown at step 2 for a missing credential. -/
def noCredentialError (providerId : String) : ProxyError :=
  { message := "No credential stored for \"" ++ providerId ++
      "\". Use butterknife_store_credential first."
    code := "NO_CREDENTIAL" }

/-- The ProxyError thrown at step 4 for a denied budget check. -/
def budgetExceededError (reason : Option String) : ProxyError :=
  { message := match reason with | some r => r | none => "Budget exceeded"
    code := "BUDGET_EXCEEDED" }

/-- The ProxyError thrown at step 6 for a network-layer failure. -/
def networkCallError (providerName errMsg : String) : ProxyError :=
  { message := "Network error calling " ++ providerName ++ ": " ++ errMsg
    code := "NETWORK_ERROR" }

/-- ApiProxy.call — the secure pipeline, in the source's step order:
resolve provider, check credential, estimate cost and gate the budget,
compose the outbound request with injected credentials, dispatch
through the oracle, compute the actual cost, record the spend, mint the
receipt, and return the response.  Errors thrown by the source are
Except.error values carrying the ProxyError together with the broker
state at the throw; the ok value carries the response and the new
state.  The receiptId and timestamp that mint draws from the
environment are explicit parameters. -/
def ApiProxy.call (h : String → String) (registry : ProviderRegistry)
    (vault : Vault) (fetchFn : OutboundRequest → Except String FetchOutcome)
    (contextId receiptId timestamp : String) (st : ProxyState)
    (request : ApiCallRequest) :
    Except (ProxyError × ProxyState) (ApiCallResponse × ProxyState) :=
  match registry request.providerId with
  | none => .error (unknownProviderError request.providerId, st)
  | some provider =>
    if Vault.has vault request.providerId = false then
      .error (noCredentialError request.providerId, st)
    else
      let estimatedCost := ProviderRegistry.estimateCost registry request.providerId request.body
      let budgetCheck := Wallet.checkBudget st.wallet request.providerId (estimatedCost : Int)
      if budgetCheck.allowed = false then
        .error (budgetExceededError budgetCheck.reason, st)
      else
        let headers0 := mergeHeaders request.headers
        let qp0 := match request.queryParams with | some q => q | none => []
        -- Vault.has succeeded above, so injectAuth cannot miss; getD
        -- only supplies an unreachable default.
        let injected := (Vault.injectAuth vault request.providerId provider
          headers0 qp0).getD (headers0, qp0)
        let headers1 := injected.1
        let qp1 := injected.2
        let body1 := injectedBody vault provider request
        let outbound : OutboundRequest :=
          { method := request.method, path := request.path
            headers := headers1, queryParams := qp1
            bodySent :=
              if request.method ≠ "GET" ∧ jsTruthy body1 = true then
                some (jsStringify (body1.getD .null))
              else none }
        match fetchFn outbound with
        | .error errMsg =>
            .error (networkCallError provider.name errMsg, st)
        | .ok outcome =>
            let responseData := outcome.responseData
            let actualCost := ApiProxy.calculateActualCost registry provider
              request.body responseData
            let recorded := Wallet.recordSpend st.wallet request.providerId actualCost
            let remaining := recorded.1
            let wallet1 := recorded.2
            let minted := ReceiptChain.mint h contextId st.receipts receiptId
              timestamp request.providerId actualCost
              (ApiProxy.requestDescriptor request (jsTruthy body1)) responseData
            .ok ({ status := outcome.status, data := responseData
                   receipt := minted.1, cost := actualCost
                   remainingBudget := remaining },
                 { wallet := wallet1, receipts := minted.2 })

-- ════════════════════════════════════════════════════════════════════
-- Auxiliary definitions for the verified properties
-- ════════════════════════════════════════════════════════════════════

/-- The receiptHash of the chain's last receipt, or the given default
for an empty chain — exactly the previousReceiptHash that mint assigns
to the next receipt. -/
def lastHashOr (prev : String) (receipts : List CallReceipt) : String :=
  match receipts.getLast? with
  | some last => last.receiptHash
  | none => prev

/-- Does the first character list start the second? -/
def leadsChars : List Char → List Char → Bool
  | [], _ => true
  | _ :: _, [] => false
  | a :: as, b :: bs => a == b && leadsChars as bs

/-- Does the first character list appear contiguously in the second? -/
def appearsInChars (needle : List Char) : List Char → Bool
  | [] => leadsChars needle []
  | b :: bs => leadsChars needle (b :: bs) || appearsInChars needle bs

/-- Substring occurrence test (used to state the secrecy claim). -/
def occursIn (needle hay : String) : Bool :=
  appearsInChars needle.toList hay.toList

/-- Whether an Except value is a success. -/
def exceptIsOk {ε α : Type} : Except ε α → Bool
  | .ok _ => true
  | .error _ => false

-- Concrete fixtures used by witnesses and counterexamples.  A
-- per-request provider keeps every arithmetic step of the pipeline
-- kernel-computable.

/-- A custom per-request provider. -/
def perReqProvider : ProviderConfig :=
  { id := "perx", name := "PerX", baseUrl := "https://api.perx.example"
    authMethod := .header, authField := "Authorization", authPfx := some "Bearer "
    costPerUnit := 500, costUnit := .perRequest }

/-- A registry holding exactly the per-request provider. -/
def demoRegistry : ProviderRegistry :=
  fun providerId => if providerId = "perx" then some perReqProvider else none

/-- A vault holding one active credential for the per-request provider. -/
def mkVault (credential : String) : Vault :=
  fun providerId =>
    if providerId = "perx" then
      some { providerId := "perx", credential := credential
             storedAt := "2026-01-01T00:00:00.000Z", active := true }
    else none

/-- A dispatch oracle that always answers 200 with a fixed JSON body. -/
def demoFetch : OutboundRequest → Except String FetchOutcome :=
  fun _ => .ok { status := 200, responseData := .obj [("done", .bool true)] }

/-- A fresh broker state with a one-dollar budget. -/
def demoState : ProxyState :=
  { wallet := freshWallet 1000000 "2026-01-01T00:00:00.000Z", receipts := [] }

/-- A plain GET request to the per-request provider. -/
def demoRequest : ApiCallRequest :=
  { providerId := "perx", method := "GET", path := "/x"
    headers := none, body := none, queryParams := none }

/-- The same request aimed at an unregistered provider. -/
def unknownRequest : ApiCallRequest :=
  { providerId := "nope", method := "GET", path := "/x"
    headers := none, body := none, queryParams := none }

/-- The pipeline run whose credential is the string "path" — which also
occurs verbatim inside the canonical request descriptor. -/
def c3callPath : Except (ProxyError × ProxyState) (ApiCallResponse × ProxyState) :=
  ApiProxy.call (fun s => s) demoRegistry (mkVault "path") demoFetch
    "ctx" "rid" "ts" demoState demoRequest

/-- The receipt minted by that run. -/
def c3receipt : CallReceipt :=
  match c3callPath with
  | .ok (resp, _) => resp.receipt
  | .error _ => default

/-- The same pipeline run with credential "credA". -/
def c3callA : Except (ProxyError × ProxyState) (ApiCallResponse × ProxyState) :=
  ApiProxy.call (fun s => s) demoRegistry (mkVault "credA") demoFetch
    "ctx" "rid" "ts" demoState demoRequest

/-- The same pipeline run with credential "credB". -/
def c3callB : Except (ProxyError × ProxyState) (ApiCallResponse × ProxyState) :=
  ApiProxy.call (fun s => s) demoRegistry (mkVault "credB") demoFetch
    "ctx" "rid" "ts" demoState demoRequest

/-- Response and state of the credA run. -/
def c3respA : ApiCallResponse :=
  match c3callA with
  | .ok (resp, _) => resp
  | .error _ => default

/-- State of the credA run. -/
def c3stA : ProxyState :=
  match c3callA with
  | .ok (_, st) => st
  | .error _ => default

/-- Response of the credB run. -/
def c3respB : ApiCallResponse :=
  match c3callB with
  | .ok (resp, _) => resp
  | .error _ => default

/-- State of the credB run. -/
def c3stB : ProxyState :=
  match c3callB with
  | .ok (_, st) => st
  | .error _ => default

/-- A pipeline run against an unregistered provider (fails at step 1). -/
def c4call : Except (ProxyError × ProxyState) (ApiCallResponse × ProxyState) :=
  ApiProxy.call (fun s => s) demoRegistry (mkVault "credA") demoFetch
    "ctx" "rid" "ts" demoState unknownRequest

/-- The error of that run. -/
def c4err : ProxyError :=
  match c4call with
  | .error (e, _) => e
  | .ok _ => default

/-- The state carried by that error. -/
def c4errState : ProxyState :=
  match c4call with
  | .error (_, st) => st
  | .ok _ => default

-- ════════════════════════════════════════════════════════════════════
-- Theorems
-- ════════════════════════════════════════════════════════════════════

-- Arithmetic bridge: Math.ceil of an exact non-negative quotient is
-- ceiling division on Nat.

theorem natCeil_cast_div (a b : Nat) (hb : b ≠ 0) :
    ⌈(a : ℚ) / b⌉₊ = (a + b - 1) / b := by
  have hbp : 0 < b := Nat.pos_of_ne_zero hb
  have hb0 : (0 : ℚ) < (b : ℚ) := by exact_mod_cast hbp
  rcases Nat.eq_zero_or_pos a with ha | ha
  · subst ha
    rw [Nat.cast_zero, zero_div, Nat.ceil_zero, Nat.zero_add,
      Nat.div_eq_of_lt (Nat.sub_lt hbp Nat.one_pos)]
  · have key : b * ((a + b - 1) / b) + (a + b - 1) % b = a + b - 1 :=
      Nat.div_add_mod _ _
    have hr : (a + b - 1) % b < b := Nat.mod_lt _ hbp
    have hq : (a + b - 1) / b ≠ 0 := by
      rw [Ne, Nat.div_eq_zero_iff hbp]
      omega
    rw [Nat.ceil_eq_iff hq]
    constructor
    · rw [lt_div_iff₀ hb0]
      have hnat : ((a + b - 1) / b - 1) * b < a := by
        rw [Nat.sub_mul, Nat.one_mul, Nat.mul_comm]
        generalize hM : b * ((a + b - 1) / b) = M at key ⊢
        omega
      exact_mod_cast hnat
    · rw [div_le_iff₀ hb0]
      have hnat : a ≤ (a + b - 1) / b * b := by
        rw [Nat.mul_comm]
        generalize hM : b * ((a + b - 1) / b) = M at key ⊢
        omega
      exact_mod_cast hnat

theorem natCeil_div_four (a : Nat) : ⌈(a : ℚ) / 4⌉₊ = (a + 3) / 4 := by
  have e : ((4 : Nat) : ℚ) = (4 : ℚ) := by norm_num
  rw [← e, natCeil_cast_div a 4 (by norm_num)]
  omega

theorem natCeil_div_thousand_mul (t c : Nat) :
    ⌈(t : ℚ) / 1000 * c⌉₊ = (t * c + 999) / 1000 := by
  have step : (t : ℚ) / 1000 * c = ((t * c : Nat) : ℚ) / ((1000 : Nat) : ℚ) := by
    push_cast
    ring
  rw [step, natCeil_cast_div (t * c) 1000 (by norm_num)]
  omega

/-- Closed form of the source's per-1k-token estimate (helper shared by
several results below). -/
theorem estimateCostFor_per1kTokens (p : ProviderConfig) (body : Option Json)
    (hunit : p.costUnit = CostUnit.per1kTokens) :
    estimateCostFor p body =
      (((jsBodyStr body).length + 3) / 4 * p.costPerUnit + 999) / 1000 := by
  simp only [estimateCostFor, hunit]
  rw [natCeil_div_four, natCeil_div_thousand_mul]

-- Wallet helper lemmas.

/-- Adding c to byProvider[k] adds c to the sum of the entries. -/
theorem sumBy_bumpKey (l : List (String × Int)) (k : String) (c : Int) :
    sumBy (bumpKey l k c) = sumBy l + c := by
  induction l with
  | nil => simp [bumpKey, sumBy]
  | cons x xs ih =>
    obtain ⟨k', v⟩ := x
    by_cases hk : k' = k
    · simp only [bumpKey, if_pos hk, sumBy, List.map_cons, List.sum_cons]
      ring
    · simp only [bumpKey, if_neg hk, sumBy, List.map_cons, List.sum_cons] at ih ⊢
      omega

/-- Every wallet method preserves spent = Σ byProvider. -/
theorem stepWallet_inv (w : WalletData) (op : WalletOp)
    (hw : w.spent = sumBy w.byProvider) :
    (stepWallet w op).1.spent = sumBy (stepWallet w op).1.byProvider := by
  cases op with
  | checkBudget pid c => simpa [stepWallet] using hw
  | recordSpend pid c =>
      simp [stepWallet, Wallet.recordSpend, sumBy_bumpKey, hw]
  | setBudget m => simpa [stepWallet, Wallet.setBudget] using hw
  | resetSpend => simp [stepWallet, Wallet.resetSpend, sumBy]

/-- Operation sequences preserve spent = Σ byProvider. -/
theorem applyOps_inv : ∀ (ops : List WalletOp) (w : WalletData),
    w.spent = sumBy w.byProvider →
    (applyOps w ops).spent = sumBy (applyOps w ops).byProvider := by
  intro ops
  induction ops with
  | nil => intro w hw; simpa [applyOps] using hw
  | cons op rest ih =>
      intro w hw
      simp only [applyOps]
      exact ih _ (stepWallet_inv w op hw)

/-- C7: for every sequence of wallet operations (check_budget,
record_spend, set_budget, reset_spend) starting from a fresh wallet,
the state satisfies spent = Σ by_provider. -/
theorem wallet_spent_eq_sum_byProvider (budget : Int) (createdAt : String)
    (ops : List WalletOp) :
    (applyOps (freshWallet budget createdAt) ops).spent =
      sumBy (applyOps (freshWallet budget createdAt) ops).byProvider :=
  applyOps_inv ops _ (by simp [freshWallet, sumBy])

/-- C6: check_budget allows exactly the costs that fit in the remaining
budget (the boundary cost equal to remaining is allowed, remaining + 1
is denied), and the reason field is populated exactly when denied. -/
theorem checkBudget_boundary (w : WalletData) (providerId : String) (c : Int)
    (hc : 0 ≤ c) :
    ((Wallet.checkBudget w providerId c).allowed = true ↔
        c ≤ w.totalBudget - w.spent)
    ∧ ((Wallet.checkBudget w providerId c).reason = none ↔
        (Wallet.checkBudget w providerId c).allowed = true)
    ∧ (Wallet.checkBudget w providerId (w.totalBudget - w.spent)).allowed = true
    ∧ (Wallet.checkBudget w providerId (w.totalBudget - w.spent + 1)).allowed
        = false := by
  refine ⟨?_, ?_, ?_, ?_⟩
  · by_cases hgt : c > w.totalBudget - w.spent
    · simp [Wallet.checkBudget, if_pos hgt]
      omega
    · simp [Wallet.checkBudget, if_neg hgt]
      omega
  · by_cases hgt : c > w.totalBudget - w.spent
    · simp [Wallet.checkBudget, if_pos hgt]
    · simp [Wallet.checkBudget, if_neg hgt]
  · simp [Wallet.checkBudget]
  · simp [Wallet.checkBudget]

/-- Witness for C6 at a concrete wallet and cost. -/
theorem checkBudget_boundary_witness :
    (0 ≤ (5 : Int))
    ∧ (((Wallet.checkBudget (freshWallet 100 "t0") "p" 5).allowed = true ↔
        (5 : Int) ≤ (freshWallet 100 "t0").totalBudget - (freshWallet 100 "t0").spent)
    ∧ ((Wallet.checkBudget (freshWallet 100 "t0") "p" 5).reason = none ↔
        (Wallet.checkBudget (freshWallet 100 "t0") "p" 5).allowed = true)
    ∧ (Wallet.checkBudget (freshWallet 100 "t0") "p"
        ((freshWallet 100 "t0").totalBudget - (freshWallet 100 "t0").spent)).allowed = true
    ∧ (Wallet.checkBudget (freshWallet 100 "t0") "p"
        ((freshWallet 100 "t0").totalBudget - (freshWallet 100 "t0").spent + 1)).allowed
        = false) :=
  ⟨by decide, checkBudget_boundary (freshWallet 100 "t0") "p" 5 (by decide)⟩

/-- C10: check_budget is a pure read — it leaves the wallet state
unchanged, performs no persistence, and a repeated call with the same
arguments returns the same result. -/
theorem checkBudget_pure_read (w : WalletData) (providerId : String) (c : Int) :
    stepWallet w (WalletOp.checkBudget providerId c) = (w, false)
    ∧ Wallet.checkBudget (stepWallet w (WalletOp.checkBudget providerId c)).1
        providerId c = Wallet.checkBudget w providerId c :=
  ⟨rfl, rfl⟩

/-- C8 counterexample: record_spend accepts a negative cost, mutates
the wallet, and strictly decreases spent — the claimed rejection does
not happen. -/
theorem wallet_negative_spend_counterexample :
    (stepWallet (freshWallet 100 "t0") (WalletOp.recordSpend "p" (-5))).1.spent
        < (freshWallet 100 "t0").spent
    ∧ (stepWallet (freshWallet 100 "t0") (WalletOp.recordSpend "p" (-5))).1
        ≠ freshWallet 100 "t0"
    ∧ (stepWallet (freshWallet 100 "t0") (WalletOp.setBudget (-7))).1.totalBudget
        = -7 := by
  refine ⟨by decide, by decide, by decide⟩

/-- C8 as amended: the wallet's monetary operations perform no input
validation — record_spend adds any integer cost to both spent and the
per-provider sum (so a negative cost decreases spent), and set_budget
stores any integer budget while leaving spent untouched. -/
theorem wallet_negative_inputs_accepted (w : WalletData) (providerId : String)
    (c b : Int) :
    ((stepWallet w (WalletOp.recordSpend providerId c)).1.spent = w.spent + c)
    ∧ (sumBy (stepWallet w (WalletOp.recordSpend providerId c)).1.byProvider
        = sumBy w.byProvider + c)
    ∧ ((stepWallet w (WalletOp.setBudget b)).1.totalBudget = b)
    ∧ ((stepWallet w (WalletOp.setBudget b)).1.spent = w.spent) := by
  refine ⟨rfl, ?_, rfl, rfl⟩
  simp [stepWallet, Wallet.recordSpend, sumBy_bumpKey]

/-- C5 counterexample: for the built-in openai provider and the string
body "aaaa", the source's estimate is 3 (it measures the raw string,
length 4), while the claimed formula over the canonical JSON
serialisation (the quoted string, 6 UTF-8 bytes) yields 6. -/
theorem estimateCost_spec_mismatch :
    estimateCostFor openaiProvider (some (Json.str "aaaa")) = 3
    ∧ specEstimatePer1kTokens openaiProvider (some (Json.str "aaaa")) = 6
    ∧ estimateCostFor openaiProvider (some (Json.str "aaaa"))
        ≠ specEstimatePer1kTokens openaiProvider (some (Json.str "aaaa")) := by
  have h1 : estimateCostFor openaiProvider (some (Json.str "aaaa")) = 3 := by
    rw [estimateCostFor_per1kTokens openaiProvider _ rfl]
    decide
  have h2 : specEstimatePer1kTokens openaiProvider (some (Json.str "aaaa")) = 6 := by
    simp only [specEstimatePer1kTokens]
    rw [natCeil_div_four, natCeil_div_thousand_mul]
    decide
  exact ⟨h1, h2, by rw [h1, h2]; decide⟩

/-- C5 as amended: for every per-1k-token provider, the source's
estimate is ceil(ceil(L / 4) / 1000 · cost_per_unit) where L is the
length (in UTF-16 code units) of the raw request body when it is a
string, and of JSON.stringify(request_body ?? "") otherwise — not of
the canonical sorted-key serialisation. -/
theorem estimateCost_closed_form (p : ProviderConfig) (body : Option Json)
    (hunit : p.costUnit = CostUnit.per1kTokens) :
    estimateCostFor p body =
      (((jsBodyStr body).length + 3) / 4 * p.costPerUnit + 999) / 1000 :=
  estimateCostFor_per1kTokens p body hunit

/-- Witness for C5 (amended) at the openai provider. -/
theorem estimateCost_closed_form_witness :
    openaiProvider.costUnit = CostUnit.per1kTokens
    ∧ estimateCostFor openaiProvider (some (Json.str "aaaa")) =
        (((jsBodyStr (some (Json.str "aaaa"))).length + 3) / 4 *
          openaiProvider.costPerUnit + 999) / 1000 :=
  ⟨rfl, estimateCost_closed_form openaiProvider (some (Json.str "aaaa")) rfl⟩

/-- C9: getRecent 0 returns the whole chain, not the empty sequence —
receipts.slice(-0) is receipts.slice(0).  (For n ≥ 1 the call does
return the last min(n, length) receipts.) -/
theorem getRecent_zero_returns_all (r₀ r₁ : CallReceipt) :
    ReceiptChain.getRecent [r₀, r₁] 0 = [r₀, r₁]
    ∧ ReceiptChain.getRecent [r₀, r₁] 0 ≠ []
    ∧ ReceiptChain.getRecent [r₀, r₁] 1 = [r₁]
    ∧ ReceiptChain.getRecent [r₀, r₁] 2 = [r₀, r₁]
    ∧ ReceiptChain.getRecent [r₀, r₁] 5 = [r₀, r₁] := by
  refine ⟨rfl, by simp [ReceiptChain.getRecent], rfl, rfl, rfl⟩

-- Receipt-chain lemmas.

/-- The next receipt's previousReceiptHash accumulator steps through a
cons cell. -/
theorem lastHashOr_cons (prev : String) (x : CallReceipt) (xs : List CallReceipt) :
    lastHashOr prev (x :: xs) = lastHashOr x.receiptHash xs := by
  cases xs with
  | nil => rfl
  | cons y ys =>
      have hs : (y :: ys).getLast?.isSome := List.getLast?_isSome.mpr (by simp)
      obtain ⟨last, hlast⟩ := Option.isSome_iff_exists.mp hs
      simp [lastHashOr, List.getLast?_cons_cons, hlast]

/-- Appending a correctly linked and correctly hashed receipt preserves
a valid verification run. -/
theorem verifyLoop_append (h : String → String) (r : CallReceipt) :
    ∀ (chain : List CallReceipt) (i : Nat) (prev : String),
      verifyLoop h i prev chain = { valid := true, brokenAt := none, reason := none } →
      r.previousReceiptHash = lastHashOr prev chain →
      r.receiptHash = h (mintPreimage r.receiptId r.contextId r.requestHash
        r.responseHash r.previousReceiptHash) →
      verifyLoop h i prev (chain ++ [r]) =
        { valid := true, brokenAt := none, reason := none } := by
  intro chain
  induction chain with
  | nil =>
      intro i prev hok hprev hhash
      simp only [lastHashOr, List.getLast?] at hprev
      simp only [List.nil_append, verifyLoop]
      rw [if_neg (by simp [hprev]), if_neg (by simp [hhash])]
  | cons x xs ih =>
      intro i prev hok hprev hhash
      simp only [verifyLoop] at hok
      by_cases h1 : x.previousReceiptHash ≠ prev
      · rw [if_pos h1] at hok
        simp at hok
      · rw [if_neg h1] at hok
        by_cases h2 : x.receiptHash ≠ h (mintPreimage x.receiptId x.contextId
            x.requestHash x.responseHash x.previousReceiptHash)
        · rw [if_pos h2] at hok
          simp at hok
        · rw [if_neg h2] at hok
          simp only [List.cons_append, verifyLoop]
          rw [if_neg h1, if_neg h2]
          exact ih (i + 1) x.receiptHash hok
            (by rw [hprev, lastHashOr_cons]) hhash

/-- Minting any sequence onto a chain that verifies keeps it verifying:
every receipt mint produces is linked to the chain's last hash and
carries the hash of its own preimage. -/
theorem mintAll_verify_ok (h : String → String) (cid : String) :
    ∀ (inputs : List MintInput) (chain : List CallReceipt),
      verifyLoop h 0 GENESIS_HASH chain =
        { valid := true, brokenAt := none, reason := none } →
      verifyLoop h 0 GENESIS_HASH (mintAll h cid chain inputs) =
        { valid := true, brokenAt := none, reason := none } := by
  intro inputs
  induction inputs with
  | nil => intro chain hok; simpa [mintAll] using hok
  | cons inp rest ih =>
      intro chain hok
      simp only [mintAll]
      exact ih _ (verifyLoop_append h _ chain 0 GENESIS_HASH hok rfl rfl)

/-- A chain that verifies is well linked: the first previousReceiptHash
is the expected predecessor and each receipt links to its predecessor's
receiptHash. -/
theorem verifyLoop_wellLinked (h : String → String) :
    ∀ (chain : List CallReceipt) (i : Nat) (prev : String),
      verifyLoop h i prev chain =
        { valid := true, brokenAt := none, reason := none } →
      wellLinkedFrom prev chain = true := by
  intro chain
  induction chain with
  | nil => intro i prev _; rfl
  | cons x xs ih =>
      intro i prev hok
      simp only [verifyLoop] at hok
      by_cases h1 : x.previousReceiptHash ≠ prev
      · rw [if_pos h1] at hok
        simp at hok
      · rw [if_neg h1] at hok
        by_cases h2 : x.receiptHash ≠ h (mintPreimage x.receiptId x.contextId
            x.requestHash x.responseHash x.previousReceiptHash)
        · rw [if_pos h2] at hok
          simp at hok
        · rw [if_neg h2] at hok
          simp only [wellLinkedFrom, Bool.and_eq_true, beq_iff_eq]
          exact ⟨not_not.mp h1, ih (i + 1) x.receiptHash hok⟩

/-- verify never reads the cost field: overwriting any receipt's cost
leaves the whole verification result unchanged. -/
theorem verifyLoop_setCost (h : String → String) :
    ∀ (rs : List CallReceipt) (k : Nat) (c : Int) (i : Nat) (prev : String),
      verifyLoop h i prev (setCostAt rs k c) = verifyLoop h i prev rs := by
  intro rs
  induction rs with
  | nil => intro k c i prev; cases k <;> rfl
  | cons x xs ih =>
      intro k c i prev
      cases k with
      | zero => rfl
      | succ k' =>
          simp only [setCostAt, verifyLoop]
          by_cases h1 : x.previousReceiptHash ≠ prev
          · rw [if_pos h1, if_pos h1]
          · rw [if_neg h1, if_neg h1]
            by_cases h2 : x.receiptHash ≠ h (mintPreimage x.receiptId x.contextId
                x.requestHash x.responseHash x.previousReceiptHash)
            · rw [if_pos h2, if_pos h2]
            · rw [if_neg h2, if_neg h2]
              exact ih k' c (i + 1) x.receiptHash

/-- C2: after every sequence of mints starting from an empty ledger,
verify reports the chain valid (this holds for every prefix, i.e.
immediately after each successful mint), the first receipt's
previousReceiptHash is the 64-zero genesis string, and every receipt
links to its predecessor's receiptHash. -/
theorem receiptChain_verify_valid_after_mints (h : String → String)
    (cid : String) (inputs : List MintInput) :
    ReceiptChain.verify h (mintAll h cid [] inputs) =
      { valid := true, brokenAt := none, reason := none }
    ∧ wellLinked (mintAll h cid [] inputs) = true
    ∧ GENESIS_HASH.length = 64
    ∧ GENESIS_HASH.toList.all (fun c => c = '0') = true := by
  have hok := mintAll_verify_ok h cid inputs [] rfl
  exact ⟨hok, verifyLoop_wellLinked h _ 0 GENESIS_HASH hok, by decide, by decide⟩

/-- C1 (code bug evidence): the cost field is not part of the receipt
hash preimage, so overwriting any receipt's cost after any number of
mints — in particular receipt index 1 after three mints — still makes
verify report the chain valid, contrary to the claimed
{valid: false, broken_at: 1}. -/
theorem receiptChain_costTamper_undetected (h : String → String)
    (cid : String) (inputs : List MintInput) (k : Nat) (c : Int) :
    ReceiptChain.verify h (setCostAt (mintAll h cid [] inputs) k c) =
      { valid := true, brokenAt := none, reason := none } := by
  have hok := mintAll_verify_ok h cid inputs [] rfl
  calc verifyLoop h 0 GENESIS_HASH (setCostAt (mintAll h cid [] inputs) k c)
      = verifyLoop h 0 GENESIS_HASH (mintAll h cid [] inputs) :=
        verifyLoop_setCost h _ k c 0 GENESIS_HASH
    _ = { valid := true, brokenAt := none, reason := none } := hok

-- Pipeline theorems.

/-- Body-auth injection does not change the truthiness of the body (it
only rewrites an already-truthy JSON object), so the receipt's
"present"/"absent" marker is credential-free. -/
theorem jsTruthy_injectedBody (vault : Vault) (provider : ProviderConfig)
    (request : ApiCallRequest) :
    jsTruthy (injectedBody vault provider request) = jsTruthy request.body := by
  unfold injectedBody
  split
  · next fields heq1 heq2 =>
      rw [heq2]
      rfl
  · rfl

/-- C4: whenever the pipeline fails, the error is one of
UNKNOWN_PROVIDER, NO_CREDENTIAL, BUDGET_EXCEEDED or NETWORK_ERROR, and
the broker state at the throw is exactly the pre-call state — no spend
is recorded and no receipt is minted. -/
theorem pipeline_error_no_side_effects (h : String → String)
    (registry : ProviderRegistry) (vault : Vault)
    (fetchFn : OutboundRequest → Except String FetchOutcome)
    (contextId receiptId timestamp : String) (st : ProxyState)
    (request : ApiCallRequest) (e : ProxyError) (st' : ProxyState)
    (hcall : ApiProxy.call h registry vault fetchFn contextId receiptId timestamp
      st request = .error (e, st')) :
    st' = st
    ∧ (e.code = "UNKNOWN_PROVIDER" ∨ e.code = "NO_CREDENTIAL"
        ∨ e.code = "BUDGET_EXCEEDED" ∨ e.code = "NETWORK_ERROR") := by
  simp only [ApiProxy.call] at hcall
  split at hcall
  · simp only [Except.error.injEq, Prod.mk.injEq] at hcall
    obtain ⟨he, hst⟩ := hcall
    subst he
    exact ⟨hst.symm, Or.inl rfl⟩
  · split at hcall
    · simp only [Except.error.injEq, Prod.mk.injEq] at hcall
      obtain ⟨he, hst⟩ := hcall
      subst he
      exact ⟨hst.symm, Or.inr (Or.inl rfl)⟩
    · split at hcall
      · simp only [Except.error.injEq, Prod.mk.injEq] at hcall
        obtain ⟨he, hst⟩ := hcall
        subst he
        exact ⟨hst.symm, Or.inr (Or.inr (Or.inl rfl))⟩
      · split at hcall
        · simp only [Except.error.injEq, Prod.mk.injEq] at hcall
          obtain ⟨he, hst⟩ := hcall
          subst he
          exact ⟨hst.symm, Or.inr (Or.inr (Or.inr rfl))⟩
        · simp at hcall

/-- Witness for C4: a call against an unregistered provider errors and
the theorem yields the unchanged state. -/
theorem pipeline_error_no_side_effects_witness :
    c4errState = demoState
    ∧ (c4err.code = "UNKNOWN_PROVIDER" ∨ c4err.code = "NO_CREDENTIAL"
        ∨ c4err.code = "BUDGET_EXCEEDED" ∨ c4err.code = "NETWORK_ERROR") :=
  pipeline_error_no_side_effects (fun s => s) demoRegistry (mkVault "credA")
    demoFetch "ctx" "rid" "ts" demoState unknownRequest c4err c4errState rfl

/-- C3 as amended: for a fixed network response, the request-hash
preimage is the canonical serialisation of the credential-free object
{method, path, queryParams, bodyHash} with bodyHash one of the literals
"present"/"absent", and two completed calls that differ only in the
stored credential return identical responses, receipts and broker
states — so the credential can reach neither the preimage nor any
receipt field through the pipeline (it can still coincide with
caller-chosen request text, which is what the original claim's
universal substring-freeness misses). -/
theorem pipeline_credential_noninterference (h : String → String)
    (registry : ProviderRegistry) (vault₁ vault₂ : Vault)
    (fetchFn : OutboundRequest → Except String FetchOutcome)
    (contextId receiptId timestamp : String) (st : ProxyState)
    (request : ApiCallRequest)
    (resp₁ resp₂ : ApiCallResponse) (st₁ st₂ : ProxyState)
    (hf : ∀ o o' : OutboundRequest, fetchFn o = fetchFn o')
    (h₁ : ApiProxy.call h registry vault₁ fetchFn contextId receiptId timestamp
      st request = .ok (resp₁, st₁))
    (h₂ : ApiProxy.call h registry vault₂ fetchFn contextId receiptId timestamp
      st request = .ok (resp₂, st₂)) :
    resp₁ = resp₂ ∧ st₁ = st₂
    ∧ resp₁.receipt.requestHash =
        h (stableStringify (ApiProxy.requestDescriptor request
          (jsTruthy request.body))) := by
  obtain ⟨fo, hfo⟩ : ∃ fo, ∀ o, fetchFn o = fo :=
    ⟨fetchFn { method := request.method, path := request.path, headers := []
               queryParams := [], bodySent := none },
     fun o => hf o _⟩
  simp only [ApiProxy.call, hfo, jsTruthy_injectedBody] at h₁ h₂
  split at h₁
  · simp at h₁
  · next provider heq =>
      simp only [heq] at h₂
      split at h₁
      · simp at h₁
      · split at h₂
        · simp at h₂
        · split at h₁
          · simp at h₁
          · next hcond =>
              rw [if_neg hcond] at h₂
              cases fo with
              | error msg => simp at h₁
              | ok outcome =>
                  simp only [] at h₁ h₂
                  have hh := h₁.symm.trans h₂
                  simp only [Except.ok.injEq, Prod.mk.injEq] at hh h₁
                  obtain ⟨hre, hse⟩ := hh
                  refine ⟨hre, hse, ?_⟩
                  rw [← h₁.1]
                  rfl

/-- Witness for C3 (amended): two completed runs whose stored
credentials are "credA" and "credB" produce the same response, receipt
and state. -/
theorem pipeline_credential_noninterference_witness :
    (∀ o o' : OutboundRequest, demoFetch o = demoFetch o')
    ∧ (c3respA = c3respB ∧ c3stA = c3stB
        ∧ c3respA.receipt.requestHash =
            (fun s => s) (stableStringify (ApiProxy.requestDescriptor demoRequest
              (jsTruthy demoRequest.body)))) :=
  ⟨fun _ _ => rfl,
   pipeline_credential_noninterference (fun s => s) demoRegistry
     (mkVault "credA") (mkVault "credB") demoFetch "ctx" "rid" "ts" demoState
     demoRequest c3respA c3respB c3stA c3stB (fun _ _ => rfl) rfl rfl⟩

/-- C3 counterexample to the claim as stated: a completed call whose
stored credential is the four-character string "path" — the credential
value does occur as a substring of the request-hash preimage (the
preimage contains the literal key "path"), even though the pipeline
never feeds the credential into the hash. -/
theorem pipeline_credential_substring_counterexample :
    exceptIsOk c3callPath = true
    ∧ mkVault "path" "perx" =
        some ⟨"perx", "path", "2026-01-01T00:00:00.000Z", true⟩
    ∧ occursIn "path" (stableStringify (ApiProxy.requestDescriptor demoRequest
        (jsTruthy demoRequest.body))) = true
    ∧ occursIn "path" c3receipt.requestHash = true := by
  refine ⟨rfl, rfl, by decide, by decide⟩
